import Mathlib

/-!
Verification of the streaming command executor of `src/utils/streaming-exec.ts`
(the `StreamingExecutor` class).  The executor spawns a child process, buffers
its output lines in a bounded ring buffer, redraws a terminal region, and
completes once the process has exited and both output streams have ended,
under an overall timeout.

The embedding models one call to `execute` as a state machine.  The
asynchronous callbacks of the source (stream `data`, stream `end`, process
`exit`, the 100ms grace timer scheduled on exit, the 30s overall timeout, and
the spawn `error` event) become events; each event's handler is translated
directly from the source into a step function on an explicit state.  Terminal
side effects and promise settlement are recorded in an append-only action log.
-/

namespace StreamingExec

/-- Observable actions performed by the executor: promise settlement
(`resolveOk`, the three reject variants), killing the child, stopping the
spinner, a redraw of the display region, and an invocation of `clearDisplay`. -/
inductive Action where
  | resolveOk : Action
  | rejectFailed (msg : String) : Action
  | rejectTimeout (msg : String) : Action
  | rejectSpawn : Action
  | kill : Action
  | spinnerStop : Action
  | display (cmdline : String) (buf : List String) : Action
  | clearDisplayCall : Action
deriving DecidableEq, Repr

/-- Asynchronous events that can be delivered to the executor.  Data events
carry the value of `Date.now()` at delivery time, used by the display
throttle. -/
inductive Ev where
  | stdoutData (t : Nat) (data : String) : Ev
  | stderrData (t : Nat) (data : String) : Ev
  | stdoutEnd : Ev
  | stderrEnd : Ev
  | exit (code : Option Int) : Ev
  | grace : Ev
  | timeout : Ev
  | spawnError : Ev
deriving DecidableEq, Repr

/-- Per-call configuration: the command and arguments, the `showOutput`
option, whether `this.currentSpinner` is set during the call, the executor's
`maxLines` capacity, and whether the child's stdout/stderr pipes exist. -/
structure Config where
  command : String
  args : List String
  showOutput : Bool
  spinnerActive : Bool
  maxLines : Nat
  hasStdout : Bool
  hasStderr : Bool
deriving DecidableEq, Repr

/-- The mutable state of one `execute` call: the executor's `outputBuffer`
plus the closure variables of `execute`, and the recorded action log. -/
structure ExecState where
  outputBuffer : List String
  hasOutput : Bool
  resolved : Bool
  lastDisplayUpdate : Nat
  stdoutEnded : Bool
  stderrEnded : Bool
  processExited : Bool
  exitCode : Option Int
  timeoutCleared : Bool
  actions : List Action
deriving DecidableEq, Repr

/-- `DISPLAY_THROTTLE_MS` of the source. -/
def DISPLAY_THROTTLE_MS : Nat := 100

/-- The command line `${command} ${args.join(' ')}` used in display and in
the timeout message. -/
def cmdline (cfg : Config) : String :=
  cfg.command ++ " " ++ String.intercalate " " cfg.args

/-- The timeout rejection message of the source. -/
def timeoutMessage (cfg : Config) : String :=
  "Command timed out after 30 seconds: " ++ cmdline cfg

/-- The failure rejection message built in `checkCompletion` from the exit
code and the output buffer at that moment. -/
def failMessage (code : Int) (buf : List String) : String :=
  "Command failed with exit code " ++ toString code ++
    (if buf.length > 0 then "\n" ++ String.intercalate "\n" buf else "")

/-- `addToBuffer`: push the line, and shift the oldest entry out when the
buffer exceeds `maxLines`. -/
def addToBuffer (maxLines : Nat) (buf : List String) (line : String) :
    List String :=
  let pushed := buf ++ [line]
  if pushed.length > maxLines then pushed.tail else pushed

/-- `clearDisplay`: erases the drawn region (a terminal side effect, recorded
as one `clearDisplayCall` action) and empties the output buffer. -/
def clearDisplay (s : ExecState) : ExecState :=
  { s with outputBuffer := [], actions := s.actions ++ [Action.clearDisplayCall] }

/-- `updateDisplay`: stops the spinner when one is active, then redraws the
command echo line and the buffered lines. -/
def updateDisplay (cfg : Config) (s : ExecState) : ExecState :=
  let s1 := if cfg.spinnerActive
    then { s with actions := s.actions ++ [Action.spinnerStop] } else s
  { s1 with actions := s1.actions ++ [Action.display (cmdline cfg) s1.outputBuffer] }

/-- JavaScript `String.prototype.trim`: strip leading and trailing
whitespace (computed on the character list of the string). -/
def jsTrim (s : String) : String :=
  String.mk
    (((s.data.dropWhile Char.isWhitespace).reverse.dropWhile
      Char.isWhitespace).reverse)

/-- The line splitting of `processOutput`:
`data.toString().split('\n').filter(line => line.trim())` (split computed on
the character list of the string). -/
def jsLines (data : String) : List String :=
  ((data.data.splitOn '\n').map String.mk).filter (fun l => !(jsTrim l == ""))

/-- The `lines.forEach` body of `processOutput`: `addToBuffer(line.trim())`
and `hasOutput = true` for each line. -/
def pushLines (cfg : Config) (lines : List String) (s : ExecState) : ExecState :=
  lines.foldl (fun s l =>
    { s with outputBuffer := addToBuffer cfg.maxLines s.outputBuffer (jsTrim l),
             hasOutput := true }) s

/-- `processOutput`: buffer the lines, then redraw, throttled to one redraw
per `DISPLAY_THROTTLE_MS`, and only when no spinner is active. -/
def processOutput (cfg : Config) (t : Nat) (data : String) (s : ExecState) :
    ExecState :=
  let s1 := pushLines cfg (jsLines data) s
  if cfg.showOutput && s1.hasOutput && !cfg.spinnerActive then
    if t - s1.lastDisplayUpdate ≥ DISPLAY_THROTTLE_MS then
      { updateDisplay cfg s1 with lastDisplayUpdate := t }
    else s1
  else s1

/-- The settlement performed by `checkCompletion`: resolve when
`exitCode === 0 || exitCode === null`, otherwise reject with the failure
message built from the exit code and the output buffer read at that moment. -/
def completionOutcome (code : Option Int) (buf : List String) : Action :=
  match code with
  | none => Action.resolveOk
  | some c =>
      if c = 0 then Action.resolveOk else Action.rejectFailed (failMessage c buf)

/-- The guard of `checkCompletion`: the process has exited, both streams have
ended, and the call is not yet resolved. -/
def completionReady (s : ExecState) : Bool :=
  s.processExited && s.stdoutEnded && s.stderrEnded && !s.resolved

/-- `checkCompletion`: resolve or reject only when the process has exited,
both streams have ended and the call is not yet resolved.  Clears the display
when `showOutput` is false, then resolves on exit code 0 or null, and rejects
with the failure message otherwise. -/
def checkCompletion (cfg : Config) (s : ExecState) : ExecState :=
  if completionReady s then
    let s1 := { s with resolved := true, timeoutCleared := true }
    let s2 := if !cfg.showOutput then clearDisplay s1 else s1
    { s2 with actions := s2.actions ++ [completionOutcome s2.exitCode s2.outputBuffer] }
  else s

/-- One event delivery: the corresponding handler of `execute`.  Stream
handlers exist only when the pipe exists; the grace-timer callback forces
both stream flags and re-runs the completion check; the overall-timeout
callback kills the child, clears the display when `showOutput`, and rejects;
the spawn `error` handler rejects immediately. -/
def step (cfg : Config) (s : ExecState) (e : Ev) : ExecState :=
  match e with
  | Ev.stdoutData t d => if cfg.hasStdout then processOutput cfg t d s else s
  | Ev.stderrData t d => if cfg.hasStderr then processOutput cfg t d s else s
  | Ev.stdoutEnd =>
      if cfg.hasStdout then checkCompletion cfg { s with stdoutEnded := true }
      else s
  | Ev.stderrEnd =>
      if cfg.hasStderr then checkCompletion cfg { s with stderrEnded := true }
      else s
  | Ev.exit c =>
      checkCompletion cfg { s with processExited := true, exitCode := c }
  | Ev.grace =>
      if !s.resolved then
        checkCompletion cfg { s with stdoutEnded := true, stderrEnded := true }
      else s
  | Ev.timeout =>
      if !s.resolved then
        let s1 := { s with resolved := true, actions := s.actions ++ [Action.kill] }
        let s2 := if cfg.showOutput then clearDisplay s1 else s1
        { s2 with actions := s2.actions ++ [Action.rejectTimeout (timeoutMessage cfg)] }
      else s
  | Ev.spawnError =>
      if s.resolved then s
      else
        let s1 := { s with resolved := true, timeoutCleared := true }
        let s2 := if cfg.showOutput then clearDisplay s1 else s1
        { s2 with actions := s2.actions ++ [Action.rejectSpawn] }

/-- The state at the top of the `Promise` body: empty buffer, nothing
resolved, and a stream that does not exist is treated as already ended
(`let stdoutEnded = !child.stdout`). -/
def init (cfg : Config) : ExecState :=
  { outputBuffer := []
    hasOutput := false
    resolved := false
    lastDisplayUpdate := 0
    stdoutEnded := !cfg.hasStdout
    stderrEnded := !cfg.hasStderr
    processExited := false
    exitCode := none
    timeoutCleared := false
    actions := [] }

/-- One execution: deliver a sequence of events to the fresh state. -/
def run (cfg : Config) (ts : List Ev) : ExecState :=
  ts.foldl (step cfg) (init cfg)

/-- Settlement actions among a log. -/
def Action.isOutcome : Action → Bool
  | Action.resolveOk => true
  | Action.rejectFailed _ => true
  | Action.rejectTimeout _ => true
  | Action.rejectSpawn => true
  | _ => false

/-- The reject variants that bypass the exit/stream tracking: the overall
timeout and the spawn error. -/
def Action.isAbort : Action → Bool
  | Action.rejectTimeout _ => true
  | Action.rejectSpawn => true
  | _ => false

def outcomesOf (l : List Action) : List Action := l.filter Action.isOutcome

/-- The promise settlements performed so far. -/
def outcomes (s : ExecState) : List Action := outcomesOf s.actions

/-- The per-call options record of `execute`
(`StreamingExecOptions`): all fields optional. -/
structure StreamingExecOptions where
  cwd : Option String := none
  maxLines : Option Nat := none
  showOutput : Option Bool := none
deriving DecidableEq, Repr

/-- The executor object: `maxLines` fixed at construction (default 10) and
the `currentSpinner` field. -/
structure StreamingExecutor where
  maxLines : Nat := 10
  currentSpinner : Bool := false
deriving DecidableEq, Repr

/-- The configuration `execute` actually runs with: it destructures only
`cwd` and `showOutput` (defaulting to true) from the options, spawns with
both pipes, and uses the executor's own `maxLines`. -/
def executeConfig (ex : StreamingExecutor) (command : String) (args : List String)
    (options : StreamingExecOptions) : Config :=
  { command := command
    args := args
    showOutput := options.showOutput.getD true
    spinnerActive := ex.currentSpinner
    maxLines := ex.maxLines
    hasStdout := true
    hasStderr := true }

/-- One `execute` call under a given event sequence. -/
def executeRun (ex : StreamingExecutor) (command : String) (args : List String)
    (options : StreamingExecOptions) (ts : List Ev) : ExecState :=
  run (executeConfig ex command args options) ts

/-- Stream events: `data` and `end` on stdout or stderr. -/
def Ev.isStreamEv : Ev → Bool
  | Ev.stdoutData _ _ => true
  | Ev.stderrData _ _ => true
  | Ev.stdoutEnd => true
  | Ev.stderrEnd => true
  | _ => false

/-- Reachability invariant of one execution: the call has settled exactly as
often as the `resolved` flag says; once all three completion flags hold the
call is resolved; a stream that does not exist counts as ended; and the ring
buffer never exceeds its capacity. -/
def Inv (cfg : Config) (s : ExecState) : Prop :=
  (outcomes s).length = (if s.resolved then 1 else 0) ∧
  (s.processExited = true → s.stdoutEnded = true → s.stderrEnded = true →
    s.resolved = true) ∧
  (cfg.hasStdout = false → s.stdoutEnded = true) ∧
  (cfg.hasStderr = false → s.stderrEnded = true) ∧
  s.outputBuffer.length ≤ cfg.maxLines

/-- All three completion signals have been observed (a stream that never
existed counts as ended from the start). -/
def FlagsAll (s : ExecState) : Prop :=
  s.processExited = true ∧ s.stdoutEnded = true ∧ s.stderrEnded = true

/-- The call has settled through the natural completion path, i.e. with an
outcome other than a timeout or spawn-error rejection. -/
def NaturalSettled (s : ExecState) : Prop :=
  ∃ o ∈ outcomes s, o.isAbort = false

/- ### Basic lemmas about the action log and the buffer -/

theorem outcomesOf_append (a b : List Action) :
    outcomesOf (a ++ b) = outcomesOf a ++ outcomesOf b := by
  simp [outcomesOf, List.filter_append]

theorem isOutcome_completionOutcome (code : Option Int) (buf : List String) :
    (completionOutcome code buf).isOutcome = true := by
  unfold completionOutcome
  cases code with
  | none => rfl
  | some c =>
      by_cases h : c = 0 <;> simp [h, Action.isOutcome]

theorem isAbort_completionOutcome (code : Option Int) (buf : List String) :
    (completionOutcome code buf).isAbort = false := by
  unfold completionOutcome
  cases code with
  | none => rfl
  | some c =>
      by_cases h : c = 0 <;> simp [h, Action.isAbort]

theorem addToBuffer_length_le (m : Nat) (buf : List String) (l : String)
    (h : buf.length ≤ m) : (addToBuffer m buf l).length ≤ m := by
  simp only [addToBuffer]
  split
  · simp only [List.length_tail, List.length_append, List.length_singleton]
    omega
  · next h' =>
      simp only [List.length_append, List.length_singleton] at h' ⊢
      omega

theorem addToBuffer_full (m : Nat) (buf : List String) (l : String)
    (hm : 0 < m) (hful : buf.length = m) :
    addToBuffer m buf l = buf.tail ++ [l] := by
  simp only [addToBuffer]
  rw [if_pos (by simp [hful])]
  cases buf with
  | nil => simp at hful; omega
  | cons a t => simp

/- ### Field preservation through `pushLines` and `processOutput` -/

theorem pushLines_fields (cfg : Config) (L : List String) (s : ExecState) :
    (pushLines cfg L s).resolved = s.resolved ∧
    (pushLines cfg L s).processExited = s.processExited ∧
    (pushLines cfg L s).stdoutEnded = s.stdoutEnded ∧
    (pushLines cfg L s).stderrEnded = s.stderrEnded ∧
    (pushLines cfg L s).exitCode = s.exitCode ∧
    (pushLines cfg L s).actions = s.actions ∧
    (pushLines cfg L s).timeoutCleared = s.timeoutCleared := by
  induction L generalizing s with
  | nil => simp [pushLines]
  | cons l L ih =>
      have h := ih { s with
        outputBuffer := addToBuffer cfg.maxLines s.outputBuffer (jsTrim l),
        hasOutput := true }
      simpa [pushLines] using h

theorem pushLines_buflen (cfg : Config) (L : List String) (s : ExecState)
    (h : s.outputBuffer.length ≤ cfg.maxLines) :
    (pushLines cfg L s).outputBuffer.length ≤ cfg.maxLines := by
  induction L generalizing s with
  | nil => simpa [pushLines] using h
  | cons l L ih =>
      have h1 : (addToBuffer cfg.maxLines s.outputBuffer (jsTrim l)).length ≤
          cfg.maxLines := addToBuffer_length_le _ _ _ h
      have h2 := ih { s with
        outputBuffer := addToBuffer cfg.maxLines s.outputBuffer (jsTrim l),
        hasOutput := true } h1
      simpa [pushLines] using h2

theorem updateDisplay_eq (cfg : Config) (s : ExecState) :
    updateDisplay cfg s = { s with actions := s.actions
      ++ (if cfg.spinnerActive then [Action.spinnerStop] else [])
      ++ [Action.display (cmdline cfg) s.outputBuffer] } := by
  simp only [updateDisplay]
  cases cfg.spinnerActive <;> simp

theorem processOutput_fields (cfg : Config) (t : Nat) (d : String)
    (s : ExecState) :
    (processOutput cfg t d s).resolved = s.resolved ∧
    (processOutput cfg t d s).processExited = s.processExited ∧
    (processOutput cfg t d s).stdoutEnded = s.stdoutEnded ∧
    (processOutput cfg t d s).stderrEnded = s.stderrEnded ∧
    (processOutput cfg t d s).exitCode = s.exitCode ∧
    (processOutput cfg t d s).timeoutCleared = s.timeoutCleared := by
  obtain ⟨h1, h2, h3, h4, h5, h6, h7⟩ := pushLines_fields cfg (jsLines d) s
  simp only [processOutput]
  split
  · split
    · simp [updateDisplay_eq, h1, h2, h3, h4, h5, h7]
    · exact ⟨h1, h2, h3, h4, h5, h7⟩
  · exact ⟨h1, h2, h3, h4, h5, h7⟩

theorem processOutput_actions (cfg : Config) (t : Nat) (d : String)
    (s : ExecState) :
    ∃ ext, (processOutput cfg t d s).actions = s.actions ++ ext ∧
      outcomesOf ext = [] ∧
      Action.clearDisplayCall ∉ ext ∧
      (cfg.spinnerActive = true → ext = []) := by
  obtain ⟨h1, h2, h3, h4, h5, h6, h7⟩ := pushLines_fields cfg (jsLines d) s
  simp only [processOutput]
  split
  · next hg =>
      have hsp : cfg.spinnerActive = false := by
        cases hx : cfg.spinnerActive <;> simp [hx] at hg ⊢
      split
      · refine ⟨[Action.display (cmdline cfg)
          (pushLines cfg (jsLines d) s).outputBuffer], ?_, ?_, ?_, ?_⟩
        · simp [updateDisplay_eq, hsp, h6]
        · simp [outcomesOf, Action.isOutcome]
        · simp
        · intro hx; rw [hx] at hsp; cases hsp
      · exact ⟨[], by simp [h6], rfl, by simp, fun _ => rfl⟩
  · exact ⟨[], by simp [h6], rfl, by simp, fun _ => rfl⟩

theorem processOutput_buflen (cfg : Config) (t : Nat) (d : String)
    (s : ExecState) (h : s.outputBuffer.length ≤ cfg.maxLines) :
    (processOutput cfg t d s).outputBuffer.length ≤ cfg.maxLines := by
  have hb := pushLines_buflen cfg (jsLines d) s h
  simp only [processOutput]
  split
  · split
    · simpa [updateDisplay_eq] using hb
    · exact hb
  · exact hb

/- ### Characterization of `checkCompletion` -/

theorem checkCompletion_skip (cfg : Config) (s : ExecState)
    (h : completionReady s = false) : checkCompletion cfg s = s := by
  simp [checkCompletion, h]

theorem checkCompletion_fires (cfg : Config) (s : ExecState)
    (h : completionReady s = true) :
    checkCompletion cfg s =
      { s with
        resolved := true
        timeoutCleared := true
        outputBuffer := if cfg.showOutput then s.outputBuffer else []
        actions := s.actions
          ++ (if cfg.showOutput then [] else [Action.clearDisplayCall])
          ++ [completionOutcome s.exitCode
               (if cfg.showOutput then s.outputBuffer else [])] } := by
  simp only [checkCompletion, h, if_true, clearDisplay]
  cases hso : cfg.showOutput <;> simp

theorem checkCompletion_flags (cfg : Config) (s : ExecState) :
    (checkCompletion cfg s).processExited = s.processExited ∧
    (checkCompletion cfg s).stdoutEnded = s.stdoutEnded ∧
    (checkCompletion cfg s).stderrEnded = s.stderrEnded ∧
    (checkCompletion cfg s).exitCode = s.exitCode := by
  cases h : completionReady s
  · rw [checkCompletion_skip cfg s h]; exact ⟨rfl, rfl, rfl, rfl⟩
  · rw [checkCompletion_fires cfg s h]; exact ⟨rfl, rfl, rfl, rfl⟩

theorem checkCompletion_resolved_mono (cfg : Config) (s : ExecState)
    (h : s.resolved = true) : (checkCompletion cfg s).resolved = true := by
  have hg : completionReady s = false := by simp [completionReady, h]
  rw [checkCompletion_skip cfg s hg]; exact h

theorem checkCompletion_resolves (cfg : Config) (s : ExecState)
    (h1 : s.processExited = true) (h2 : s.stdoutEnded = true)
    (h3 : s.stderrEnded = true) : (checkCompletion cfg s).resolved = true := by
  cases hr : s.resolved
  · have hg : completionReady s = true := by
      simp [completionReady, h1, h2, h3, hr]
    rw [checkCompletion_fires cfg s hg]
  · exact checkCompletion_resolved_mono cfg s hr

/- ### Characterization of the timeout and spawn-error handlers -/

theorem step_timeout_noop (cfg : Config) (s : ExecState)
    (h : s.resolved = true) : step cfg s Ev.timeout = s := by
  simp [step, h]

theorem step_timeout_fires (cfg : Config) (s : ExecState)
    (h : s.resolved = false) :
    step cfg s Ev.timeout =
      { s with
        resolved := true
        outputBuffer := if cfg.showOutput then [] else s.outputBuffer
        actions := s.actions ++ [Action.kill]
          ++ (if cfg.showOutput then [Action.clearDisplayCall] else [])
          ++ [Action.rejectTimeout (timeoutMessage cfg)] } := by
  simp only [step, h, Bool.not_false, if_true, clearDisplay]
  cases hso : cfg.showOutput <;> simp

theorem step_spawnError_noop (cfg : Config) (s : ExecState)
    (h : s.resolved = true) : step cfg s Ev.spawnError = s := by
  simp [step, h]

theorem step_spawnError_fires (cfg : Config) (s : ExecState)
    (h : s.resolved = false) :
    step cfg s Ev.spawnError =
      { s with
        resolved := true
        timeoutCleared := true
        outputBuffer := if cfg.showOutput then [] else s.outputBuffer
        actions := s.actions
          ++ (if cfg.showOutput then [Action.clearDisplayCall] else [])
          ++ [Action.rejectSpawn] } := by
  simp only [step, h, if_false, clearDisplay]
  cases hso : cfg.showOutput <;> simp

/- ### Monotone flags -/

theorem step_mono (cfg : Config) (s : ExecState) (e : Ev) :
    (s.resolved = true → (step cfg s e).resolved = true) ∧
    (s.processExited = true → (step cfg s e).processExited = true) ∧
    (s.stdoutEnded = true → (step cfg s e).stdoutEnded = true) ∧
    (s.stderrEnded = true → (step cfg s e).stderrEnded = true) := by
  cases e with
  | stdoutData t d =>
      simp only [step]
      split
      · obtain ⟨h1, h2, h3, h4, _, _⟩ := processOutput_fields cfg t d s
        exact ⟨by rw [h1]; exact id, by rw [h2]; exact id,
               by rw [h3]; exact id, by rw [h4]; exact id⟩
      · exact ⟨id, id, id, id⟩
  | stderrData t d =>
      simp only [step]
      split
      · obtain ⟨h1, h2, h3, h4, _, _⟩ := processOutput_fields cfg t d s
        exact ⟨by rw [h1]; exact id, by rw [h2]; exact id,
               by rw [h3]; exact id, by rw [h4]; exact id⟩
      · exact ⟨id, id, id, id⟩
  | stdoutEnd =>
      simp only [step]
      split
      · set s' : ExecState := { s with stdoutEnded := true } with hs'
        obtain ⟨g1, g2, g3, g4⟩ := checkCompletion_flags cfg s'
        refine ⟨fun h => checkCompletion_resolved_mono cfg s' (by simp [hs', h]),
                fun h => by rw [g1]; simp [hs', h],
                fun _ => by rw [g2],
                fun h => by rw [g3]; simp [hs', h]⟩
      · exact ⟨id, id, id, id⟩
  | stderrEnd =>
      simp only [step]
      split
      · set s' : ExecState := { s with stderrEnded := true } with hs'
        obtain ⟨g1, g2, g3, g4⟩ := checkCompletion_flags cfg s'
        refine ⟨fun h => checkCompletion_resolved_mono cfg s' (by simp [hs', h]),
                fun h => by rw [g1]; simp [hs', h],
                fun h => by rw [g2]; simp [hs', h],
                fun _ => by rw [g3]⟩
      · exact ⟨id, id, id, id⟩
  | exit c =>
      simp only [step]
      set s' : ExecState := { s with processExited := true, exitCode := c } with hs'
      obtain ⟨g1, g2, g3, g4⟩ := checkCompletion_flags cfg s'
      refine ⟨fun h => checkCompletion_resolved_mono cfg s' (by simp [hs', h]),
              fun _ => by rw [g1],
              fun h => by rw [g2]; simp [hs', h],
              fun h => by rw [g3]; simp [hs', h]⟩
  | grace =>
      simp only [step]
      split
      · next hr =>
          set s' : ExecState :=
            { s with stdoutEnded := true, stderrEnded := true } with hs'
          obtain ⟨g1, g2, g3, g4⟩ := checkCompletion_flags cfg s'
          refine ⟨fun h => checkCompletion_resolved_mono cfg s' (by simp [hs', h]),
                  fun h => by rw [g1]; simp [hs', h],
                  fun _ => by rw [g2],
                  fun _ => by rw [g3]⟩
      · exact ⟨id, id, id, id⟩
  | timeout =>
      cases hr : s.resolved
      · rw [step_timeout_fires cfg s hr]
        exact ⟨fun _ => rfl, id, id, id⟩
      · rw [step_timeout_noop cfg s hr]
        exact ⟨fun _ => hr, id, id, id⟩
  | spawnError =>
      cases hr : s.resolved
      · rw [step_spawnError_fires cfg s hr]
        exact ⟨fun _ => rfl, id, id, id⟩
      · rw [step_spawnError_noop cfg s hr]
        exact ⟨fun _ => hr, id, id, id⟩

/- ### The reachability invariant -/

theorem outcomes_checkCompletion (cfg : Config) (s : ExecState)
    (h : (outcomes s).length = (if s.resolved then 1 else 0)) :
    (outcomes (checkCompletion cfg s)).length =
      (if (checkCompletion cfg s).resolved then 1 else 0) := by
  cases hg : completionReady s
  · rw [checkCompletion_skip cfg s hg]; exact h
  · have hr : s.resolved = false := by
      cases hx : s.resolved
      · rfl
      · simp [completionReady, hx] at hg
    rw [checkCompletion_fires cfg s hg]
    have hc := isOutcome_completionOutcome s.exitCode
      (if cfg.showOutput then s.outputBuffer else [])
    rw [hr] at h
    simp only [outcomes, outcomesOf, List.filter_append] at h ⊢
    cases hso : cfg.showOutput <;>
      simp [hso] at hc <;>
      simp [h, hc, List.filter_cons,
        show Action.isOutcome Action.clearDisplayCall = false from rfl]

theorem inv_after_cc (cfg : Config) (s' : ExecState)
    (hcount : (outcomes s').length = (if s'.resolved then 1 else 0))
    (h3 : cfg.hasStdout = false → s'.stdoutEnded = true)
    (h4 : cfg.hasStderr = false → s'.stderrEnded = true)
    (h5 : s'.outputBuffer.length ≤ cfg.maxLines) :
    Inv cfg (checkCompletion cfg s') := by
  obtain ⟨g1, g2, g3, g4⟩ := checkCompletion_flags cfg s'
  refine ⟨outcomes_checkCompletion cfg s' hcount, ?_, ?_, ?_, ?_⟩
  · intro a b c
    exact checkCompletion_resolves cfg s'
      (g1.symm.trans a) (g2.symm.trans b) (g3.symm.trans c)
  · intro hx; rw [g2]; exact h3 hx
  · intro hx; rw [g3]; exact h4 hx
  · cases hg : completionReady s'
    · rw [checkCompletion_skip cfg s' hg]; exact h5
    · rw [checkCompletion_fires cfg s' hg]
      cases hso : cfg.showOutput <;> simp [h5]

theorem inv_step (cfg : Config) (s : ExecState) (e : Ev) (h : Inv cfg s) :
    Inv cfg (step cfg s e) := by
  obtain ⟨h1, h2, h3, h4, h5⟩ := h
  cases e with
  | stdoutData t d =>
      simp only [step]
      split
      · obtain ⟨f1, f2, f3, f4, f5, f6⟩ := processOutput_fields cfg t d s
        obtain ⟨ext, he, ho, _, _⟩ := processOutput_actions cfg t d s
        refine ⟨?_, ?_, ?_, ?_, processOutput_buflen cfg t d s h5⟩
        · rw [f1]
          have ho' : List.filter Action.isOutcome ext = [] := by
            simpa [outcomesOf] using ho
          simpa [outcomes, outcomesOf, he, List.filter_append, ho'] using h1
        · rw [f1, f2, f3, f4]; exact h2
        · rw [f3]; exact h3
        · rw [f4]; exact h4
      · exact ⟨h1, h2, h3, h4, h5⟩
  | stderrData t d =>
      simp only [step]
      split
      · obtain ⟨f1, f2, f3, f4, f5, f6⟩ := processOutput_fields cfg t d s
        obtain ⟨ext, he, ho, _, _⟩ := processOutput_actions cfg t d s
        refine ⟨?_, ?_, ?_, ?_, processOutput_buflen cfg t d s h5⟩
        · rw [f1]
          have ho' : List.filter Action.isOutcome ext = [] := by
            simpa [outcomesOf] using ho
          simpa [outcomes, outcomesOf, he, List.filter_append, ho'] using h1
        · rw [f1, f2, f3, f4]; exact h2
        · rw [f3]; exact h3
        · rw [f4]; exact h4
      · exact ⟨h1, h2, h3, h4, h5⟩
  | stdoutEnd =>
      simp only [step]
      split
      · exact inv_after_cc cfg { s with stdoutEnded := true }
          (by simpa [outcomes, outcomesOf] using h1)
          (fun _ => rfl) (fun hx => h4 hx) h5
      · exact ⟨h1, h2, h3, h4, h5⟩
  | stderrEnd =>
      simp only [step]
      split
      · exact inv_after_cc cfg { s with stderrEnded := true }
          (by simpa [outcomes, outcomesOf] using h1)
          (fun hx => h3 hx) (fun _ => rfl) h5
      · exact ⟨h1, h2, h3, h4, h5⟩
  | exit c =>
      simp only [step]
      exact inv_after_cc cfg { s with processExited := true, exitCode := c }
        (by simpa [outcomes, outcomesOf] using h1)
        (fun hx => h3 hx) (fun hx => h4 hx) h5
  | grace =>
      simp only [step]
      split
      · exact inv_after_cc cfg { s with stdoutEnded := true, stderrEnded := true }
          (by simpa [outcomes, outcomesOf] using h1)
          (fun _ => rfl) (fun _ => rfl) h5
      · exact ⟨h1, h2, h3, h4, h5⟩
  | timeout =>
      cases hr : s.resolved
      · rw [step_timeout_fires cfg s hr]
        rw [hr] at h1
        refine ⟨?_, fun _ _ _ => rfl, fun hx => h3 hx, fun hx => h4 hx, ?_⟩
        · simp only [outcomes, outcomesOf, List.filter_append] at h1 ⊢
          cases hso : cfg.showOutput <;>
            simp [h1, Action.isOutcome]
        · cases hso : cfg.showOutput <;> simp [h5]
      · rw [step_timeout_noop cfg s hr]
        exact ⟨h1, h2, h3, h4, h5⟩
  | spawnError =>
      cases hr : s.resolved
      · rw [step_spawnError_fires cfg s hr]
        rw [hr] at h1
        refine ⟨?_, fun _ _ _ => rfl, fun hx => h3 hx, fun hx => h4 hx, ?_⟩
        · simp only [outcomes, outcomesOf, List.filter_append] at h1 ⊢
          cases hso : cfg.showOutput <;>
            simp [h1, Action.isOutcome]
        · cases hso : cfg.showOutput <;> simp [h5]
      · rw [step_spawnError_noop cfg s hr]
        exact ⟨h1, h2, h3, h4, h5⟩

theorem inv_init (cfg : Config) : Inv cfg (init cfg) := by
  refine ⟨rfl, ?_, ?_, ?_, ?_⟩
  · intro a _ _
    simp [init] at a
  · intro hx; simp [init, hx]
  · intro hx; simp [init, hx]
  · simp [init]

theorem inv_foldl (cfg : Config) (ts : List Ev) (s : ExecState)
    (h : Inv cfg s) : Inv cfg (ts.foldl (step cfg) s) := by
  induction ts generalizing s with
  | nil => exact h
  | cons e ts ih => exact ih _ (inv_step cfg s e h)

theorem inv_run (cfg : Config) (ts : List Ev) : Inv cfg (run cfg ts) :=
  inv_foldl cfg ts (init cfg) (inv_init cfg)

/- ### Generic preservation along a trace -/

theorem foldl_pres_of (cfg : Config) (P : ExecState → Prop) (Q : Ev → Prop)
    (hP : ∀ s e, Q e → P s → P (step cfg s e)) :
    ∀ (ts : List Ev) (s : ExecState), (∀ e ∈ ts, Q e) → P s →
      P (ts.foldl (step cfg) s) := by
  intro ts
  induction ts with
  | nil => intro s _ h; exact h
  | cons e ts ih =>
      intro s hq h
      exact ih _ (fun x hx => hq x (List.mem_cons_of_mem e hx))
        (hP s e (hq e (List.mem_cons_self e ts)) h)

theorem foldl_pres (cfg : Config) (P : ExecState → Prop)
    (hP : ∀ s e, P s → P (step cfg s e)) :
    ∀ (ts : List Ev) (s : ExecState), P s → P (ts.foldl (step cfg) s) :=
  fun ts s h =>
    foldl_pres_of cfg P (fun _ => True) (fun s e _ => hP s e) ts s
      (fun _ _ => trivial) h

theorem foldl_mem (cfg : Config) (P : ExecState → Prop) (e0 : Ev)
    (hP : ∀ s e, P s → P (step cfg s e))
    (hset : ∀ s, P (step cfg s e0)) :
    ∀ (ts : List Ev) (s : ExecState), e0 ∈ ts → P (ts.foldl (step cfg) s) := by
  intro ts
  induction ts with
  | nil => intro s h; cases h
  | cons e ts ih =>
      intro s hmem
      rcases List.mem_cons.mp hmem with he | hts
      · subst he
        exact foldl_pres cfg P hP ts _ (hset s)
      · exact ih _ hts

theorem step_exit_sets (cfg : Config) (s : ExecState) (c : Option Int) :
    (step cfg s (Ev.exit c)).processExited = true := by
  simp only [step]
  obtain ⟨g1, _, _, _⟩ :=
    checkCompletion_flags cfg { s with processExited := true, exitCode := c }
  rw [g1]

theorem run_processExited_of_mem (cfg : Config) (ts : List Ev) (c : Option Int)
    (hmem : Ev.exit c ∈ ts) : (run cfg ts).processExited = true :=
  foldl_mem cfg (fun s => s.processExited = true) (Ev.exit c)
    (fun s e h => (step_mono cfg s e).2.1 h)
    (fun s => step_exit_sets cfg s c) ts (init cfg) hmem

theorem step_stdoutEnd_sets (cfg : Config) (s : ExecState)
    (hstd : cfg.hasStdout = true) :
    (step cfg s Ev.stdoutEnd).stdoutEnded = true := by
  simp only [step, hstd, if_true]
  obtain ⟨_, g2, _, _⟩ := checkCompletion_flags cfg { s with stdoutEnded := true }
  rw [g2]

theorem run_stdoutEnded_of_mem (cfg : Config) (ts : List Ev)
    (hmem : Ev.stdoutEnd ∈ ts) : (run cfg ts).stdoutEnded = true := by
  cases hstd : cfg.hasStdout
  · exact foldl_pres cfg (fun s => s.stdoutEnded = true)
      (fun s e h => (step_mono cfg s e).2.2.1 h) ts (init cfg)
      (by simp [init, hstd])
  · exact foldl_mem cfg (fun s => s.stdoutEnded = true) Ev.stdoutEnd
      (fun s e h => (step_mono cfg s e).2.2.1 h)
      (fun s => step_stdoutEnd_sets cfg s hstd) ts (init cfg) hmem

theorem step_stderrEnd_sets (cfg : Config) (s : ExecState)
    (hstd : cfg.hasStderr = true) :
    (step cfg s Ev.stderrEnd).stderrEnded = true := by
  simp only [step, hstd, if_true]
  obtain ⟨_, _, g3, _⟩ := checkCompletion_flags cfg { s with stderrEnded := true }
  rw [g3]

theorem run_stderrEnded_of_mem (cfg : Config) (ts : List Ev)
    (hmem : Ev.stderrEnd ∈ ts) : (run cfg ts).stderrEnded = true := by
  cases hstd : cfg.hasStderr
  · exact foldl_pres cfg (fun s => s.stderrEnded = true)
      (fun s e h => (step_mono cfg s e).2.2.2 h) ts (init cfg)
      (by simp [init, hstd])
  · exact foldl_mem cfg (fun s => s.stderrEnded = true) Ev.stderrEnd
      (fun s e h => (step_mono cfg s e).2.2.2 h)
      (fun s => step_stderrEnd_sets cfg s hstd) ts (init cfg) hmem

/- ### Natural settlement implies all completion signals were seen -/

theorem completionOutcome_ne_clear (code : Option Int) (buf : List String) :
    completionOutcome code buf ≠ Action.clearDisplayCall := by
  intro h
  have := isOutcome_completionOutcome code buf
  rw [h] at this
  cases this

theorem completionOutcome_ne_display (code : Option Int) (buf : List String)
    (c : String) (b : List String) :
    completionOutcome code buf ≠ Action.display c b := by
  intro h
  have := isOutcome_completionOutcome code buf
  rw [h] at this
  cases this

theorem flagsAll_mono (cfg : Config) (s : ExecState) (e : Ev)
    (h : FlagsAll s) : FlagsAll (step cfg s e) :=
  ⟨(step_mono cfg s e).2.1 h.1, (step_mono cfg s e).2.2.1 h.2.1,
   (step_mono cfg s e).2.2.2 h.2.2⟩

theorem flagsAll_checkCompletion_of_ready (cfg : Config) (s' : ExecState)
    (hg : completionReady s' = true) : FlagsAll (checkCompletion cfg s') := by
  obtain ⟨g1, g2, g3, _⟩ := checkCompletion_flags cfg s'
  simp only [completionReady, Bool.and_eq_true, Bool.not_eq_true'] at hg
  obtain ⟨⟨⟨h1, h2⟩, h3⟩, _⟩ := hg
  exact ⟨g1.trans h1, g2.trans h2, g3.trans h3⟩

theorem naturalSettled_checkCompletion (cfg : Config) (s' : ExecState)
    (hn : NaturalSettled (checkCompletion cfg s')) :
    NaturalSettled s' ∨ completionReady s' = true := by
  cases hg : completionReady s'
  · rw [checkCompletion_skip cfg s' hg] at hn
    exact Or.inl hn
  · exact Or.inr rfl

theorem natural_step (cfg : Config) (s : ExecState) (e : Ev)
    (h : NaturalSettled s → FlagsAll s)
    (hn : NaturalSettled (step cfg s e)) : FlagsAll (step cfg s e) := by
  cases e with
  | stdoutData t d =>
      simp only [step] at hn ⊢
      split at hn <;> rename_i hg
      · simp only [hg, if_true]
        obtain ⟨ext, he, ho, _, _⟩ := processOutput_actions cfg t d s
        obtain ⟨f1, f2, f3, f4, _, _⟩ := processOutput_fields cfg t d s
        have hs : NaturalSettled s := by
          obtain ⟨o, hmo, hao⟩ := hn
          refine ⟨o, ?_, hao⟩
          simp only [outcomes, outcomesOf, he, List.filter_append,
            List.mem_append] at hmo
          rcases hmo with hmo | hmo
          · exact hmo
          · exfalso
            have : o ∈ outcomesOf ext := by simpa [outcomesOf] using hmo
            rw [ho] at this
            cases this
        obtain ⟨a1, a2, a3⟩ := h hs
        exact ⟨f2.trans a1, f3.trans a2, f4.trans a3⟩
      · simp only [hg, if_false]
        exact h (by simpa only [hg, if_false] using hn)
  | stderrData t d =>
      simp only [step] at hn ⊢
      split at hn <;> rename_i hg
      · simp only [hg, if_true]
        obtain ⟨ext, he, ho, _, _⟩ := processOutput_actions cfg t d s
        obtain ⟨f1, f2, f3, f4, _, _⟩ := processOutput_fields cfg t d s
        have hs : NaturalSettled s := by
          obtain ⟨o, hmo, hao⟩ := hn
          refine ⟨o, ?_, hao⟩
          simp only [outcomes, outcomesOf, he, List.filter_append,
            List.mem_append] at hmo
          rcases hmo with hmo | hmo
          · exact hmo
          · exfalso
            have : o ∈ outcomesOf ext := by simpa [outcomesOf] using hmo
            rw [ho] at this
            cases this
        obtain ⟨a1, a2, a3⟩ := h hs
        exact ⟨f2.trans a1, f3.trans a2, f4.trans a3⟩
      · simp only [hg, if_false]
        exact h (by simpa only [hg, if_false] using hn)
  | stdoutEnd =>
      simp only [step] at hn ⊢
      split at hn <;> rename_i hg
      · simp only [hg, if_true]
        rcases naturalSettled_checkCompletion cfg _ hn with hs' | hready
        · have hs : NaturalSettled s := hs'
          obtain ⟨a1, a2, a3⟩ := h hs
          obtain ⟨g1, g2, g3, _⟩ :=
            checkCompletion_flags cfg { s with stdoutEnded := true }
          exact ⟨g1.trans a1, g2.trans rfl, g3.trans a3⟩
        · exact flagsAll_checkCompletion_of_ready cfg _ hready
      · simp only [hg, if_false]
        exact h (by simpa only [hg, if_false] using hn)
  | stderrEnd =>
      simp only [step] at hn ⊢
      split at hn <;> rename_i hg
      · simp only [hg, if_true]
        rcases naturalSettled_checkCompletion cfg _ hn with hs' | hready
        · have hs : NaturalSettled s := hs'
          obtain ⟨a1, a2, a3⟩ := h hs
          obtain ⟨g1, g2, g3, _⟩ :=
            checkCompletion_flags cfg { s with stderrEnded := true }
          exact ⟨g1.trans a1, g2.trans a2, g3.trans rfl⟩
        · exact flagsAll_checkCompletion_of_ready cfg _ hready
      · simp only [hg, if_false]
        exact h (by simpa only [hg, if_false] using hn)
  | exit c =>
      simp only [step] at hn ⊢
      rcases naturalSettled_checkCompletion cfg _ hn with hs' | hready
      · have hs : NaturalSettled s := hs'
        obtain ⟨a1, a2, a3⟩ := h hs
        obtain ⟨g1, g2, g3, _⟩ :=
          checkCompletion_flags cfg { s with processExited := true, exitCode := c }
        exact ⟨g1.trans rfl, g2.trans a2, g3.trans a3⟩
      · exact flagsAll_checkCompletion_of_ready cfg _ hready
  | grace =>
      simp only [step] at hn ⊢
      split at hn <;> rename_i hg
      · simp only [hg, if_true]
        rcases naturalSettled_checkCompletion cfg _ hn with hs' | hready
        · have hs : NaturalSettled s := hs'
          obtain ⟨a1, a2, a3⟩ := h hs
          obtain ⟨g1, g2, g3, _⟩ := checkCompletion_flags cfg
            { s with stdoutEnded := true, stderrEnded := true }
          exact ⟨g1.trans a1, g2.trans rfl, g3.trans rfl⟩
        · exact flagsAll_checkCompletion_of_ready cfg _ hready
      · simp only [hg, if_true]
        exact h (by simpa only [hg, if_true] using hn)
  | timeout =>
      cases hr : s.resolved
      · rw [step_timeout_fires cfg s hr] at hn ⊢
        have hs : NaturalSettled s := by
          obtain ⟨o, hmo, hao⟩ := hn
          refine ⟨o, ?_, hao⟩
          simp only [outcomes, outcomesOf, List.filter_append,
            List.mem_append] at hmo
          rcases hmo with ((hmo | hmo) | hmo) | hmo
          · exact hmo
          · simp [Action.isOutcome] at hmo
          · revert hmo
            cases cfg.showOutput <;> simp [Action.isOutcome]
          · exfalso
            simp [Action.isOutcome] at hmo
            rw [hmo] at hao
            simp [Action.isAbort] at hao
        obtain ⟨a1, a2, a3⟩ := h hs
        exact ⟨a1, a2, a3⟩
      · rw [step_timeout_noop cfg s hr] at hn ⊢
        exact h hn
  | spawnError =>
      cases hr : s.resolved
      · rw [step_spawnError_fires cfg s hr] at hn ⊢
        have hs : NaturalSettled s := by
          obtain ⟨o, hmo, hao⟩ := hn
          refine ⟨o, ?_, hao⟩
          simp only [outcomes, outcomesOf, List.filter_append,
            List.mem_append] at hmo
          rcases hmo with (hmo | hmo) | hmo
          · exact hmo
          · revert hmo
            cases cfg.showOutput <;> simp [Action.isOutcome]
          · exfalso
            simp [Action.isOutcome] at hmo
            rw [hmo] at hao
            simp [Action.isAbort] at hao
        obtain ⟨a1, a2, a3⟩ := h hs
        exact ⟨a1, a2, a3⟩
      · rw [step_spawnError_noop cfg s hr] at hn ⊢
        exact h hn

theorem natural_run (cfg : Config) (ts : List Ev)
    (hn : NaturalSettled (run cfg ts)) : FlagsAll (run cfg ts) := by
  have := foldl_pres cfg (fun s => NaturalSettled s → FlagsAll s)
    (fun s e h => natural_step cfg s e h) ts (init cfg)
    (fun hx => by
      obtain ⟨o, hmo, _⟩ := hx
      simp [init, outcomes, outcomesOf] at hmo)
  exact this hn

/- ### Display actions are never emitted on certain configurations -/

theorem noclear_checkCompletion (cfg : Config) (s' : ExecState)
    (hso : cfg.showOutput = true)
    (h : Action.clearDisplayCall ∉ s'.actions) :
    Action.clearDisplayCall ∉ (checkCompletion cfg s').actions := by
  cases hg : completionReady s'
  · rw [checkCompletion_skip cfg s' hg]; exact h
  · rw [checkCompletion_fires cfg s' hg]
    intro hmem
    simp only [hso, if_true, List.append_nil, List.mem_append,
      List.mem_singleton] at hmem
    rcases hmem with hmem | hmem
    · exact h hmem
    · exact completionOutcome_ne_clear _ _ hmem.symm

theorem noclear_step (cfg : Config) (s : ExecState) (e : Ev)
    (hso : cfg.showOutput = true)
    (hq : e ≠ Ev.timeout ∧ e ≠ Ev.spawnError)
    (h : Action.clearDisplayCall ∉ s.actions) :
    Action.clearDisplayCall ∉ (step cfg s e).actions := by
  cases e with
  | stdoutData t d =>
      simp only [step]
      split
      · obtain ⟨ext, he, _, hcl, _⟩ := processOutput_actions cfg t d s
        rw [he]
        intro hmem
        rcases List.mem_append.mp hmem with hmem | hmem
        · exact h hmem
        · exact hcl hmem
      · exact h
  | stderrData t d =>
      simp only [step]
      split
      · obtain ⟨ext, he, _, hcl, _⟩ := processOutput_actions cfg t d s
        rw [he]
        intro hmem
        rcases List.mem_append.mp hmem with hmem | hmem
        · exact h hmem
        · exact hcl hmem
      · exact h
  | stdoutEnd =>
      simp only [step]
      split
      · exact noclear_checkCompletion cfg _ hso h
      · exact h
  | stderrEnd =>
      simp only [step]
      split
      · exact noclear_checkCompletion cfg _ hso h
      · exact h
  | exit c =>
      simp only [step]
      exact noclear_checkCompletion cfg _ hso h
  | grace =>
      simp only [step]
      split
      · exact noclear_checkCompletion cfg _ hso h
      · exact h
  | timeout => exact absurd rfl hq.1
  | spawnError => exact absurd rfl hq.2

theorem nodisplay_checkCompletion (cfg : Config) (s' : ExecState)
    (h : ∀ c b, Action.display c b ∉ s'.actions) :
    ∀ c b, Action.display c b ∉ (checkCompletion cfg s').actions := by
  intro c b
  cases hg : completionReady s'
  · rw [checkCompletion_skip cfg s' hg]; exact h c b
  · rw [checkCompletion_fires cfg s' hg]
    intro hmem
    simp only [List.mem_append, List.mem_singleton] at hmem
    rcases hmem with (hmem | hmem) | hmem
    · exact h c b hmem
    · revert hmem
      cases cfg.showOutput <;> simp
    · exact completionOutcome_ne_display _ _ c b hmem.symm

theorem nodisplay_step (cfg : Config) (s : ExecState) (e : Ev)
    (hsp : cfg.spinnerActive = true)
    (h : ∀ c b, Action.display c b ∉ s.actions) :
    ∀ c b, Action.display c b ∉ (step cfg s e).actions := by
  intro c b
  cases e with
  | stdoutData t d =>
      simp only [step]
      split
      · obtain ⟨ext, he, _, _, hspx⟩ := processOutput_actions cfg t d s
        rw [he, hspx hsp]
        simpa using h c b
      · exact h c b
  | stderrData t d =>
      simp only [step]
      split
      · obtain ⟨ext, he, _, _, hspx⟩ := processOutput_actions cfg t d s
        rw [he, hspx hsp]
        simpa using h c b
      · exact h c b
  | stdoutEnd =>
      simp only [step]
      split
      · exact nodisplay_checkCompletion cfg { s with stdoutEnded := true } h c b
      · exact h c b
  | stderrEnd =>
      simp only [step]
      split
      · exact nodisplay_checkCompletion cfg { s with stderrEnded := true } h c b
      · exact h c b
  | exit code =>
      simp only [step]
      exact nodisplay_checkCompletion cfg
        { s with processExited := true, exitCode := code } h c b
  | grace =>
      simp only [step]
      split
      · exact nodisplay_checkCompletion cfg
          { s with stdoutEnded := true, stderrEnded := true } h c b
      · exact h c b
  | timeout =>
      cases hr : s.resolved
      · rw [step_timeout_fires cfg s hr]
        intro hmem
        simp only [List.mem_append, List.mem_singleton] at hmem
        rcases hmem with ((hmem | hmem) | hmem) | hmem
        · exact h c b hmem
        · cases hmem
        · revert hmem
          cases cfg.showOutput <;> simp
        · cases hmem
      · rw [step_timeout_noop cfg s hr]
        exact h c b
  | spawnError =>
      cases hr : s.resolved
      · rw [step_spawnError_fires cfg s hr]
        intro hmem
        simp only [List.mem_append, List.mem_singleton] at hmem
        rcases hmem with (hmem | hmem) | hmem
        · exact h c b hmem
        · revert hmem
          cases cfg.showOutput <;> simp
        · cases hmem
      · rw [step_spawnError_noop cfg s hr]
        exact h c b

/- ### Tracking a zero exit code to a successful resolution -/

theorem p9_checkCompletion (cfg : Config) (s' : ExecState)
    (hec : s'.exitCode = some 0)
    (hout : outcomes s' = (if s'.resolved then [Action.resolveOk] else [])) :
    (checkCompletion cfg s').processExited = s'.processExited ∧
    (checkCompletion cfg s').exitCode = some 0 ∧
    outcomes (checkCompletion cfg s') =
      (if (checkCompletion cfg s').resolved then [Action.resolveOk] else []) := by
  obtain ⟨g1, _, _, g4⟩ := checkCompletion_flags cfg s'
  refine ⟨g1, g4.trans hec, ?_⟩
  cases hg : completionReady s'
  · rw [checkCompletion_skip cfg s' hg]; exact hout
  · have hr : s'.resolved = false := by
      cases hx : s'.resolved
      · rfl
      · simp [completionReady, hx] at hg
    rw [checkCompletion_fires cfg s' hg]
    rw [hr] at hout
    have hco : ∀ b, completionOutcome s'.exitCode b = Action.resolveOk := by
      intro b; rw [hec]; simp [completionOutcome]
    simp only [outcomes, outcomesOf, List.filter_append] at hout ⊢
    simp only [if_neg Bool.false_ne_true] at hout
    cases hso : cfg.showOutput <;>
      simp [hout, hco, List.filter_cons,
        show Action.isOutcome Action.clearDisplayCall = false from rfl,
        show Action.isOutcome Action.resolveOk = true from rfl]

theorem p9_step (cfg : Config) (s : ExecState) (e : Ev)
    (he : e.isStreamEv = true)
    (h : s.processExited = true ∧ s.exitCode = some 0 ∧
      outcomes s = (if s.resolved then [Action.resolveOk] else [])) :
    (step cfg s e).processExited = true ∧
    (step cfg s e).exitCode = some 0 ∧
    outcomes (step cfg s e) =
      (if (step cfg s e).resolved then [Action.resolveOk] else []) := by
  obtain ⟨h1, h2, h3⟩ := h
  cases e with
  | stdoutData t d =>
      simp only [step]
      split
      · obtain ⟨f1, f2, _, _, f5, _⟩ := processOutput_fields cfg t d s
        obtain ⟨ext, heq, ho, _, _⟩ := processOutput_actions cfg t d s
        have ho' : List.filter Action.isOutcome ext = [] := by
          simpa [outcomesOf] using ho
        refine ⟨f2.trans h1, f5.trans h2, ?_⟩
        rw [f1]
        simp only [outcomes, outcomesOf] at h3 ⊢
        simp [heq, List.filter_append, ho', h3]
      · exact ⟨h1, h2, h3⟩
  | stderrData t d =>
      simp only [step]
      split
      · obtain ⟨f1, f2, _, _, f5, _⟩ := processOutput_fields cfg t d s
        obtain ⟨ext, heq, ho, _, _⟩ := processOutput_actions cfg t d s
        have ho' : List.filter Action.isOutcome ext = [] := by
          simpa [outcomesOf] using ho
        refine ⟨f2.trans h1, f5.trans h2, ?_⟩
        rw [f1]
        simp only [outcomes, outcomesOf] at h3 ⊢
        simp [heq, List.filter_append, ho', h3]
      · exact ⟨h1, h2, h3⟩
  | stdoutEnd =>
      simp only [step]
      split
      · obtain ⟨q1, q2, q3⟩ :=
          p9_checkCompletion cfg { s with stdoutEnded := true } h2 h3
        exact ⟨q1.trans h1, q2, q3⟩
      · exact ⟨h1, h2, h3⟩
  | stderrEnd =>
      simp only [step]
      split
      · obtain ⟨q1, q2, q3⟩ :=
          p9_checkCompletion cfg { s with stderrEnded := true } h2 h3
        exact ⟨q1.trans h1, q2, q3⟩
      · exact ⟨h1, h2, h3⟩
  | exit c => simp [Ev.isStreamEv] at he
  | grace => simp [Ev.isStreamEv] at he
  | timeout => simp [Ev.isStreamEv] at he
  | spawnError => simp [Ev.isStreamEv] at he

/- ### The claims -/

/-- C1: for every execution, `execute` resolves or rejects exactly once:
along any event sequence the call settles at most once, and any sequence
containing the process-exit event and both stream-end events — in any of the
six possible orders, with grace-timer, overall-timeout and spawn-error events
allowed to fire as well — settles exactly once, guarded by the `resolved`
flag. -/
theorem execute_settles_exactly_once (cfg : Config) (ts : List Ev) :
    (outcomes (run cfg ts)).length ≤ 1 ∧
    (∀ c : Option Int,
      Ev.exit c ∈ ts → Ev.stdoutEnd ∈ ts → Ev.stderrEnd ∈ ts →
      (outcomes (run cfg ts)).length = 1) := by
  obtain ⟨h1, h2, _, _, _⟩ := inv_run cfg ts
  refine ⟨?_, ?_⟩
  · rw [h1]; split <;> simp
  · intro c hx hs he
    have hres : (run cfg ts).resolved = true :=
      h2 (run_processExited_of_mem cfg ts c hx)
        (run_stdoutEnded_of_mem cfg ts hs)
        (run_stderrEnded_of_mem cfg ts he)
    simp [h1, hres]

/-- Witness for C1: a trace with all three completion events out of order,
followed by the timeout, grace and spawn-error callbacks, settles once. -/
theorem execute_settles_exactly_once_witness :
    (outcomes (run
      { command := "git"
        args := ["clone"]
        showOutput := true
        spinnerActive := false
        maxLines := 10
        hasStdout := true
        hasStderr := true }
      [Ev.stderrEnd, Ev.exit (some 0), Ev.stdoutEnd, Ev.timeout, Ev.grace,
       Ev.spawnError])).length = 1 :=
  (execute_settles_exactly_once _ _).2 (some 0) (by decide) (by decide)
    (by decide)

/-- C2: whenever an execution settles through the natural completion path
(an outcome other than the timeout or spawn-error rejection), the
process-exit flag and both stream-end flags hold; since this is proved for
every event sequence, it holds at every prefix, so the call never resolves
or rejects before all three signals are observed (a stream that never
existed is treated as ended from initialization). -/
theorem settle_requires_exit_and_stream_ends (cfg : Config) (ts : List Ev)
    (o : Action) (ho : o ∈ outcomes (run cfg ts)) (hnat : o.isAbort = false) :
    (run cfg ts).processExited = true ∧ (run cfg ts).stdoutEnded = true ∧
    (run cfg ts).stderrEnded = true :=
  natural_run cfg ts ⟨o, ho, hnat⟩

/-- Witness for C2 at a concrete successful execution. -/
theorem settle_requires_exit_and_stream_ends_witness :
    (run
      { command := "pnpm"
        args := ["install"]
        showOutput := true
        spinnerActive := false
        maxLines := 10
        hasStdout := true
        hasStderr := true }
      [Ev.exit (some 0), Ev.stdoutEnd, Ev.stderrEnd]).processExited = true ∧
    (run
      { command := "pnpm"
        args := ["install"]
        showOutput := true
        spinnerActive := false
        maxLines := 10
        hasStdout := true
        hasStderr := true }
      [Ev.exit (some 0), Ev.stdoutEnd, Ev.stderrEnd]).stdoutEnded = true ∧
    (run
      { command := "pnpm"
        args := ["install"]
        showOutput := true
        spinnerActive := false
        maxLines := 10
        hasStdout := true
        hasStderr := true }
      [Ev.exit (some 0), Ev.stdoutEnd, Ev.stderrEnd]).stderrEnded = true :=
  settle_requires_exit_and_stream_ends _ _ Action.resolveOk (by decide)
    (by decide)

/-- C3: the ring buffer never holds more than `maxLines` entries along any
execution, and appending to a full buffer (capacity at least 1) drops
exactly the oldest entry while preserving the insertion order of the rest. -/
theorem ring_buffer_bounded_and_fifo (cfg : Config) (ts : List Ev)
    (buf : List String) (line : String) :
    (run cfg ts).outputBuffer.length ≤ cfg.maxLines ∧
    (0 < cfg.maxLines → buf.length = cfg.maxLines →
      addToBuffer cfg.maxLines buf line = buf.tail ++ [line]) :=
  ⟨(inv_run cfg ts).2.2.2.2, fun hm hf => addToBuffer_full _ _ _ hm hf⟩

/-- Witness for C3: a capacity-2 buffer fed three lines stays at 2 entries,
and pushing onto a full buffer evicts the oldest entry. -/
theorem ring_buffer_bounded_and_fifo_witness :
    (run
      { command := "git"
        args := []
        showOutput := true
        spinnerActive := false
        maxLines := 2
        hasStdout := true
        hasStderr := true }
      [Ev.stdoutData 0 "l1", Ev.stdoutData 0 "l2",
       Ev.stdoutData 0 "l3"]).outputBuffer.length ≤ 2 ∧
    addToBuffer 2 ["a", "b"] "c" = ["b", "c"] :=
  ⟨(ring_buffer_bounded_and_fifo
      { command := "git"
        args := []
        showOutput := true
        spinnerActive := false
        maxLines := 2
        hasStdout := true
        hasStderr := true }
      [Ev.stdoutData 0 "l1", Ev.stdoutData 0 "l2", Ev.stdoutData 0 "l3"]
      ["a", "b"] "c").1,
   (ring_buffer_bounded_and_fifo
      { command := "git"
        args := []
        showOutput := true
        spinnerActive := false
        maxLines := 2
        hasStdout := true
        hasStderr := true }
      [Ev.stdoutData 0 "l1", Ev.stdoutData 0 "l2", Ev.stdoutData 0 "l3"]
      ["a", "b"] "c").2 (by decide) (by decide)⟩

/-- C4 counterexample: with `showOutput` false the completion path calls
`clearDisplay` — emptying the output buffer — before the failure message is
built, so a process that printed "boom" and exited with code 2 rejects with
a message that contains the exit code but none of the buffered lines, even
though "boom" was in the buffer when the exit was observed. -/
theorem failure_message_drops_buffer_when_output_hidden :
    (run
      { command := "git"
        args := ["clone"]
        showOutput := false
        spinnerActive := false
        maxLines := 10
        hasStdout := true
        hasStderr := true }
      [Ev.stdoutData 0 "boom", Ev.stdoutEnd, Ev.stderrEnd,
       Ev.exit (some 2)]).actions
      = [Action.clearDisplayCall,
         Action.rejectFailed "Command failed with exit code 2"] ∧
    (run
      { command := "git"
        args := ["clone"]
        showOutput := false
        spinnerActive := false
        maxLines := 10
        hasStdout := true
        hasStderr := true }
      [Ev.stdoutData 0 "boom", Ev.stdoutEnd,
       Ev.stderrEnd]).outputBuffer = ["boom"] ∧
    ¬ ("boom".data <:+: "Command failed with exit code 2".data) := by decide

/-- C4 (amended): when `showOutput` is true, a completion with non-zero exit
code `c` rejects with the failure message built from `c` and the buffer held
at that moment: the message contains the exit code and all buffered lines
joined by newlines in insertion order.  (When `showOutput` is false the
buffer is cleared before the message is built, so the lines are lost.) -/
theorem failure_rejection_includes_code_and_buffer (cfg : Config)
    (s : ExecState) (c : Int) (hso : cfg.showOutput = true)
    (hg : completionReady s = true) (hc : s.exitCode = some c) (hnz : c ≠ 0) :
    (checkCompletion cfg s).actions =
      s.actions ++ [Action.rejectFailed (failMessage c s.outputBuffer)] ∧
    (toString c).data <:+: (failMessage c s.outputBuffer).data ∧
    (String.intercalate "\n" s.outputBuffer).data <:+:
      (failMessage c s.outputBuffer).data := by
  refine ⟨?_, ?_, ?_⟩
  · rw [checkCompletion_fires cfg s hg]
    simp [hso, hc, completionOutcome, hnz]
  · refine ⟨"Command failed with exit code ".data,
      (if s.outputBuffer.length > 0
        then "\n" ++ String.intercalate "\n" s.outputBuffer else "").data, ?_⟩
    simp [failMessage, String.data_append]
  · by_cases hb : s.outputBuffer.length > 0
    · refine ⟨("Command failed with exit code " ++ toString c ++ "\n").data,
        [], ?_⟩
      simp [failMessage, hb, String.data_append]
    · have hbuf : s.outputBuffer = [] := by
        cases hx : s.outputBuffer
        · rfl
        · rw [hx] at hb; simp at hb
      rw [hbuf]
      have hi : ("\n".intercalate ([] : List String)) = "" := by decide
      exact ⟨[], (failMessage c []).data, by simp [hi]⟩

/-- Witness for the amended C4 at a concrete failing completion. -/
theorem failure_rejection_includes_code_and_buffer_witness :
    (checkCompletion
      { command := "git"
        args := ["clone"]
        showOutput := true
        spinnerActive := false
        maxLines := 10
        hasStdout := true
        hasStderr := true }
      { outputBuffer := ["boom"]
        hasOutput := true
        resolved := false
        lastDisplayUpdate := 0
        stdoutEnded := true
        stderrEnded := true
        processExited := true
        exitCode := some 2
        timeoutCleared := false
        actions := [] }).actions =
      [Action.rejectFailed (failMessage 2 ["boom"])] ∧
    (toString (2 : Int)).data <:+: (failMessage 2 ["boom"]).data ∧
    (String.intercalate "\n" ["boom"]).data <:+:
      (failMessage 2 ["boom"]).data :=
  failure_rejection_includes_code_and_buffer _ _ 2 rfl (by decide) rfl
    (by decide)

/-- C5 counterexample: a successful execution with `showOutput` true and no
active spinner resolves without ever invoking `clearDisplay`: the completion
path clears the live display only when `showOutput` is false. -/
theorem success_with_output_shown_never_clears :
    outcomes (run
      { command := "git"
        args := ["clone"]
        showOutput := true
        spinnerActive := false
        maxLines := 10
        hasStdout := true
        hasStderr := true }
      [Ev.stdoutData 0 "hi", Ev.stdoutEnd, Ev.stderrEnd, Ev.exit (some 0)])
      = [Action.resolveOk] ∧
    Action.clearDisplayCall ∉
      (run
        { command := "git"
          args := ["clone"]
          showOutput := true
          spinnerActive := false
          maxLines := 10
          hasStdout := true
          hasStderr := true }
        [Ev.stdoutData 0 "hi", Ev.stdoutEnd, Ev.stderrEnd,
         Ev.exit (some 0)]).actions := by decide

/-- C5 (amended): on completion `clearDisplay` is invoked exactly when
`showOutput` is false: an execution with `showOutput` true that is not ended
by the timeout or a spawn error never invokes `clearDisplay`, while a
completion with `showOutput` false invokes it (on the already-emptied
buffer) immediately before settling. -/
theorem clearDisplay_on_completion_iff_output_hidden (cfg : Config)
    (ts : List Ev) (s : ExecState) :
    (cfg.showOutput = true → (∀ e ∈ ts, e ≠ Ev.timeout ∧ e ≠ Ev.spawnError) →
      Action.clearDisplayCall ∉ (run cfg ts).actions) ∧
    (cfg.showOutput = false → completionReady s = true →
      (checkCompletion cfg s).actions =
        s.actions ++ [Action.clearDisplayCall,
          completionOutcome s.exitCode []]) := by
  constructor
  · intro hso hq
    exact foldl_pres_of cfg (fun s => Action.clearDisplayCall ∉ s.actions)
      (fun e => e ≠ Ev.timeout ∧ e ≠ Ev.spawnError)
      (fun s e hqe h => noclear_step cfg s e hso hqe h) ts (init cfg) hq
      (by simp [init])
  · intro hso hg
    rw [checkCompletion_fires cfg s hg]
    simp [hso]

/-- Witness for the amended C5: the shown-output part at a successful trace
and the hidden-output part at a concrete completion. -/
theorem clearDisplay_on_completion_iff_output_hidden_witness :
    Action.clearDisplayCall ∉
      (run
        { command := "git"
          args := ["clone"]
          showOutput := true
          spinnerActive := false
          maxLines := 10
          hasStdout := true
          hasStderr := true }
        [Ev.exit (some 0), Ev.stdoutEnd, Ev.stderrEnd]).actions ∧
    (checkCompletion
      { command := "git"
        args := ["clone"]
        showOutput := false
        spinnerActive := false
        maxLines := 10
        hasStdout := true
        hasStderr := true }
      { outputBuffer := ["hi"]
        hasOutput := true
        resolved := false
        lastDisplayUpdate := 0
        stdoutEnded := true
        stderrEnded := true
        processExited := true
        exitCode := some 0
        timeoutCleared := false
        actions := [] }).actions =
      [Action.clearDisplayCall, Action.resolveOk] :=
  ⟨(clearDisplay_on_completion_iff_output_hidden
      { command := "git"
        args := ["clone"]
        showOutput := true
        spinnerActive := false
        maxLines := 10
        hasStdout := true
        hasStderr := true }
      [Ev.exit (some 0), Ev.stdoutEnd, Ev.stderrEnd]
      (init
        { command := "git"
          args := ["clone"]
          showOutput := true
          spinnerActive := false
          maxLines := 10
          hasStdout := true
          hasStderr := true })).1 rfl (by decide),
   (clearDisplay_on_completion_iff_output_hidden
      { command := "git"
        args := ["clone"]
        showOutput := false
        spinnerActive := false
        maxLines := 10
        hasStdout := true
        hasStderr := true }
      []
      { outputBuffer := ["hi"]
        hasOutput := true
        resolved := false
        lastDisplayUpdate := 0
        stdoutEnded := true
        stderrEnded := true
        processExited := true
        exitCode := some 0
        timeoutCleared := false
        actions := [] }).2 rfl (by decide)⟩

/-- C6 counterexample: with a spinner active and `showOutput` true, a data
event arriving well past the 100ms throttle window changes the buffer but
produces no display action at all — display updates are skipped entirely,
not performed immediately. -/
theorem spinner_active_skips_display_updates :
    (run
      { command := "pnpm"
        args := ["install"]
        showOutput := true
        spinnerActive := true
        maxLines := 10
        hasStdout := true
        hasStderr := true }
      [Ev.stdoutData 1000 "hi"]).outputBuffer = ["hi"] ∧
    (run
      { command := "pnpm"
        args := ["install"]
        showOutput := true
        spinnerActive := true
        maxLines := 10
        hasStdout := true
        hasStderr := true }
      [Ev.stdoutData 1000 "hi"]).actions = [] := by decide

/-- C6 (amended): when a spinner is active, `processOutput` skips display
updates entirely: no redraw action is ever emitted during the execution
(the 100ms throttle never comes into play). -/
theorem no_display_update_when_spinner_active (cfg : Config) (ts : List Ev)
    (hsp : cfg.spinnerActive = true) (c : String) (b : List String) :
    Action.display c b ∉ (run cfg ts).actions := by
  have := foldl_pres cfg (fun s => ∀ c b, Action.display c b ∉ s.actions)
    (fun s e h => nodisplay_step cfg s e hsp h) ts (init cfg)
    (by intro c b; simp [init])
  exact this c b

/-- Witness for the amended C6 at a concrete spinner-owned execution. -/
theorem no_display_update_when_spinner_active_witness :
    Action.display "pnpm install" ["hi"] ∉
      (run
        { command := "pnpm"
          args := ["install"]
          showOutput := true
          spinnerActive := true
          maxLines := 10
          hasStdout := true
          hasStderr := true }
        [Ev.stdoutData 1000 "hi", Ev.exit (some 0), Ev.stdoutEnd,
         Ev.stderrEnd]).actions :=
  no_display_update_when_spinner_active _ _ rfl "pnpm install" ["hi"]

/-- C7: a process-exit event carrying a null exit code resolves the
execution successfully, exactly as exit code 0 does: the completion check
appends a successful resolution, and its entire action log matches the one
produced from the same state with exit code 0. -/
theorem null_exit_resolves_like_zero (cfg : Config) (s : ExecState)
    (hg : completionReady s = true) (hc : s.exitCode = none) :
    outcomes (checkCompletion cfg s) = outcomes s ++ [Action.resolveOk] ∧
    (checkCompletion cfg s).actions =
      (checkCompletion cfg { s with exitCode := some 0 }).actions := by
  have hg0 : completionReady { s with exitCode := some 0 } = true := by
    simpa [completionReady] using hg
  constructor
  · rw [checkCompletion_fires cfg s hg]
    simp only [outcomes, outcomesOf, List.filter_append]
    cases hso : cfg.showOutput <;>
      simp [hc, completionOutcome, List.filter_cons,
        show Action.isOutcome Action.clearDisplayCall = false from rfl,
        show Action.isOutcome Action.resolveOk = true from rfl]
  · rw [checkCompletion_fires cfg s hg, checkCompletion_fires cfg _ hg0]
    simp [hc, completionOutcome]

/-- Witness for C7 at a concrete signal-terminated completion. -/
theorem null_exit_resolves_like_zero_witness :
    outcomes (checkCompletion
      { command := "git"
        args := ["clone"]
        showOutput := true
        spinnerActive := false
        maxLines := 10
        hasStdout := true
        hasStderr := true }
      { outputBuffer := ["hi"]
        hasOutput := true
        resolved := false
        lastDisplayUpdate := 0
        stdoutEnded := true
        stderrEnded := true
        processExited := true
        exitCode := none
        timeoutCleared := false
        actions := [] }) = [Action.resolveOk] ∧
    (checkCompletion
      { command := "git"
        args := ["clone"]
        showOutput := true
        spinnerActive := false
        maxLines := 10
        hasStdout := true
        hasStderr := true }
      { outputBuffer := ["hi"]
        hasOutput := true
        resolved := false
        lastDisplayUpdate := 0
        stdoutEnded := true
        stderrEnded := true
        processExited := true
        exitCode := none
        timeoutCleared := false
        actions := [] }).actions =
    (checkCompletion
      { command := "git"
        args := ["clone"]
        showOutput := true
        spinnerActive := false
        maxLines := 10
        hasStdout := true
        hasStderr := true }
      { outputBuffer := ["hi"]
        hasOutput := true
        resolved := false
        lastDisplayUpdate := 0
        stdoutEnded := true
        stderrEnded := true
        processExited := true
        exitCode := some 0
        timeoutCleared := false
        actions := [] }).actions :=
  null_exit_resolves_like_zero _ _ (by decide) rfl

/-- C8: when the 30-second overall timeout fires on an unresolved execution,
the child process is killed before the rejection is recorded, and the
rejection message names the 30-second bound and the original command line;
when the execution has already settled, the timeout callback is a no-op. -/
theorem overall_timeout_kills_then_rejects (cfg : Config) (s : ExecState) :
    (s.resolved = false →
      (step cfg s Ev.timeout).actions =
        s.actions ++ [Action.kill]
          ++ (if cfg.showOutput then [Action.clearDisplayCall] else [])
          ++ [Action.rejectTimeout (timeoutMessage cfg)] ∧
      "30 seconds".data <:+: (timeoutMessage cfg).data ∧
      (cmdline cfg).data <:+: (timeoutMessage cfg).data) ∧
    (s.resolved = true → step cfg s Ev.timeout = s) := by
  constructor
  · intro hr
    refine ⟨by rw [step_timeout_fires cfg s hr], ?_, ?_⟩
    · have hsplit : ("Command timed out after 30 seconds: " : String) =
          "Command timed out after " ++ "30 seconds" ++ ": " := by decide
      refine ⟨"Command timed out after ".data,
        ": ".data ++ (cmdline cfg).data, ?_⟩
      rw [timeoutMessage, hsplit]
      simp [String.data_append]
    · refine ⟨"Command timed out after 30 seconds: ".data, [], ?_⟩
      simp [timeoutMessage, String.data_append]
  · exact fun hr => step_timeout_noop cfg s hr

/-- Witness for C8: the timeout fires on an unresolved state (kill, clear,
reject in that order) and is a no-op on a resolved one. -/
theorem overall_timeout_kills_then_rejects_witness :
    ((step
        { command := "git"
          args := ["clone"]
          showOutput := true
          spinnerActive := false
          maxLines := 10
          hasStdout := true
          hasStderr := true }
        { outputBuffer := []
          hasOutput := false
          resolved := false
          lastDisplayUpdate := 0
          stdoutEnded := false
          stderrEnded := false
          processExited := false
          exitCode := none
          timeoutCleared := false
          actions := [] } Ev.timeout).actions =
      [Action.kill, Action.clearDisplayCall,
       Action.rejectTimeout (timeoutMessage
        { command := "git"
          args := ["clone"]
          showOutput := true
          spinnerActive := false
          maxLines := 10
          hasStdout := true
          hasStderr := true })] ∧
      "30 seconds".data <:+: (timeoutMessage
        { command := "git"
          args := ["clone"]
          showOutput := true
          spinnerActive := false
          maxLines := 10
          hasStdout := true
          hasStderr := true }).data ∧
      (cmdline
        { command := "git"
          args := ["clone"]
          showOutput := true
          spinnerActive := false
          maxLines := 10
          hasStdout := true
          hasStderr := true }).data <:+: (timeoutMessage
        { command := "git"
          args := ["clone"]
          showOutput := true
          spinnerActive := false
          maxLines := 10
          hasStdout := true
          hasStderr := true }).data) ∧
    step
      { command := "git"
        args := ["clone"]
        showOutput := true
        spinnerActive := false
        maxLines := 10
        hasStdout := true
        hasStderr := true }
      { outputBuffer := []
        hasOutput := false
        resolved := true
        lastDisplayUpdate := 0
        stdoutEnded := true
        stderrEnded := true
        processExited := true
        exitCode := some 0
        timeoutCleared := true
        actions := [Action.resolveOk] } Ev.timeout =
      { outputBuffer := []
        hasOutput := false
        resolved := true
        lastDisplayUpdate := 0
        stdoutEnded := true
        stderrEnded := true
        processExited := true
        exitCode := some 0
        timeoutCleared := true
        actions := [Action.resolveOk] } :=
  ⟨(overall_timeout_kills_then_rejects _ _).1 rfl,
   (overall_timeout_kills_then_rejects _ _).2 rfl⟩

/-- C9: a process that exits with code 0 and whose streams never emit their
end events still resolves successfully: after the exit event and any
interleaving of stream activity, the grace timer forces both streams to be
treated as ended and the execution settles with exactly one successful
resolution. -/
theorem grace_timer_forces_success (cfg : Config) (mid : List Ev)
    (hmid : ∀ e ∈ mid, e.isStreamEv = true) :
    outcomes (run cfg (Ev.exit (some 0) :: (mid ++ [Ev.grace]))) =
      [Action.resolveOk] := by
  have hstart : (step cfg (init cfg) (Ev.exit (some 0))).processExited = true ∧
      (step cfg (init cfg) (Ev.exit (some 0))).exitCode = some 0 ∧
      outcomes (step cfg (init cfg) (Ev.exit (some 0))) =
        (if (step cfg (init cfg) (Ev.exit (some 0))).resolved
          then [Action.resolveOk] else []) := by
    simp only [step]
    obtain ⟨q1, q2, q3⟩ := p9_checkCompletion cfg
      { init cfg with processExited := true, exitCode := some 0 } rfl
      (by simp [init, outcomes, outcomesOf])
    exact ⟨q1.trans rfl, q2, q3⟩
  have hmid2 := foldl_pres_of cfg
    (fun s => s.processExited = true ∧ s.exitCode = some 0 ∧
      outcomes s = (if s.resolved then [Action.resolveOk] else []))
    (fun e => e.isStreamEv = true)
    (fun s e hq h => p9_step cfg s e hq h) mid _ hmid hstart
  set s2 := mid.foldl (step cfg) (step cfg (init cfg) (Ev.exit (some 0)))
    with hs2
  obtain ⟨q1, q2, q3⟩ := hmid2
  have hrun : run cfg (Ev.exit (some 0) :: (mid ++ [Ev.grace])) =
      step cfg s2 Ev.grace := by
    simp [run, List.foldl_append, hs2]
  rw [hrun]
  cases hr : s2.resolved
  · have hstep : step cfg s2 Ev.grace =
        checkCompletion cfg
          { s2 with stdoutEnded := true, stderrEnded := true } := by
      simp [step, hr]
    rw [hstep]
    obtain ⟨_, _, q3x⟩ := p9_checkCompletion cfg
      { s2 with stdoutEnded := true, stderrEnded := true } q2 q3
    rw [q3x]
    have hres : (checkCompletion cfg
        { s2 with stdoutEnded := true, stderrEnded := true }).resolved = true :=
      checkCompletion_resolves cfg _ q1 rfl rfl
    simp [hres]
  · have hstep : step cfg s2 Ev.grace = s2 := by simp [step, hr]
    rw [hstep, q3, hr]
    rfl

/-- Witness for C9: exit 0, stderr ends, stdout never ends, grace fires. -/
theorem grace_timer_forces_success_witness :
    outcomes (run
      { command := "git"
        args := ["fetch"]
        showOutput := true
        spinnerActive := false
        maxLines := 10
        hasStdout := true
        hasStderr := true }
      (Ev.exit (some 0) :: ([Ev.stderrEnd] ++ [Ev.grace]))) =
      [Action.resolveOk] :=
  grace_timer_forces_success _ [Ev.stderrEnd] (by decide)

/-- C10: the `maxLines` field of the per-call options is ignored: `execute`
runs with the same configuration whatever `maxLines` the options carry, the
ring buffer is bounded by the executor's constructor-set capacity, and the
constructor default is 10. -/
theorem options_maxLines_ignored (ex : StreamingExecutor) (cmd : String)
    (args : List String) (opts : StreamingExecOptions) (m : Option Nat)
    (ts : List Ev) :
    executeRun ex cmd args { opts with maxLines := m } ts =
      executeRun ex cmd args opts ts ∧
    (executeRun ex cmd args opts ts).outputBuffer.length ≤ ex.maxLines ∧
    ({} : StreamingExecutor).maxLines = 10 :=
  ⟨rfl, (inv_run (executeConfig ex cmd args opts) ts).2.2.2.2, rfl⟩

end StreamingExec
